import Mathlib

/-! ## discover/gpu_sycl.go : syclGetVisibleDevicesEnv

A shallow embedding of the Go function

    func syclGetVisibleDevicesEnv(gpuInfo []GpuInfo) (string, string)

together with the properties of its result and of the debug records it emits.

Modelling choices.
* Go strings are Lean strings; concatenation is string append.  The
  separator "," and the literal "level_zero:" are ASCII, so nothing below
  depends on how a character is encoded.
* A Go slice is a list; append(ids, x) is ids ++ [x].
* The range loop is a left fold of the loop body over the input.
* Each call of slog.Debug appends one record to an explicit output sequence.
-/

namespace Discover

/-! ## Data model -/

/-- Device descriptor.  The function reads the fields ID and Library only; the
struct is declared elsewhere in the package, so all of its remaining fields are
carried as one value of a parameter type. -/
structure GpuInfo (ρ : Type) where
  ID : String
  Library : String
  rest : ρ

/-- Severity of a log record. -/
inductive Level where
  | debug
  | info
  | warn
  | error
  deriving DecidableEq, Repr

/-- One structured log record: severity, message, and key/value attributes. -/
structure Record where
  level : Level
  msg : String
  attrs : List (String × String)
  deriving DecidableEq, Repr

/-- The record produced by slog.Debug(msg, key, value, ...). -/
def slogDebug (msg : String) (attrs : List (String × String)) : Record :=
  { level := Level.debug, msg := msg, attrs := attrs }

/-! ## strings.Join -/

/-- Go strings.Join: the empty string for no elements, the element itself for
one, and otherwise the first element followed by separator and element for each
of the remaining ones, written left to right into a builder. -/
def Join (elems : List String) (sep : String) : String :=
  match elems with
  | [] => ""
  | [e] => e
  | e :: es => es.foldl (fun b s => b ++ sep ++ s) e

/-! ## The function -/

/-- The variables live across the loop: the slice ids and the emitted records. -/
structure LoopState where
  ids : List String
  log : List Record
  deriving DecidableEq, Repr

/-- One iteration of the range loop. -/
def loopBody {ρ : Type} (st : LoopState) (info : GpuInfo ρ) : LoopState :=
  if info.Library != "sycl" then
    { st with log := st.log ++
        [slogDebug "syclGetVisibleDevicesEnv skipping over non-sycl device"
          [("library", info.Library)]] }
  else
    { st with ids := st.ids ++ [info.ID] }

/-- The state after the whole loop, starting from ids = [] and no records. -/
def loopResult {ρ : Type} (gpuInfo : List (GpuInfo ρ)) : LoopState :=
  gpuInfo.foldl loopBody { ids := [], log := [] }

/-- The returned pair of syclGetVisibleDevicesEnv. -/
def syclGetVisibleDevicesEnv {ρ : Type} (gpuInfo : List (GpuInfo ρ)) : String × String :=
  ("ONEAPI_DEVICE_SELECTOR", "level_zero:" ++ Join (loopResult gpuInfo).ids ",")

/-- The debug records emitted by one call of syclGetVisibleDevicesEnv, in order. -/
def syclGetVisibleDevicesEnvLog {ρ : Type} (gpuInfo : List (GpuInfo ρ)) : List Record :=
  (loopResult gpuInfo).log

/-! ## Specification-side definitions -/

/-- Specification: the entries whose Library is "sycl", in input order. -/
def matching {ρ : Type} (gpuInfo : List (GpuInfo ρ)) : List (GpuInfo ρ) :=
  gpuInfo.filter (fun info => info.Library == "sycl")

/-- Specification: the entries whose Library is not "sycl", in input order. -/
def skipped {ρ : Type} (gpuInfo : List (GpuInfo ρ)) : List (GpuInfo ρ) :=
  gpuInfo.filter (fun info => info.Library != "sycl")

/-- Specification: the IDs of the matching entries, in input order. -/
def matchingIDs {ρ : Type} (gpuInfo : List (GpuInfo ρ)) : List String :=
  (matching gpuInfo).map (fun info => info.ID)

/-- Specification: comma-join, one "," between consecutive items and nowhere else. -/
def commaJoin : List String → String
  | [] => ""
  | [a] => a
  | a :: b :: rest => a ++ "," ++ commaJoin (b :: rest)

/-- The part of a returned value after its first eleven characters, the length
of "level_zero:". -/
def valueSuffix (value : String) : String :=
  String.mk (value.data.drop "level_zero:".length)

/-- The diagnostic record for one skipped entry, as a function of its Library. -/
def skipRecord (library : String) : Record :=
  slogDebug "syclGetVisibleDevicesEnv skipping over non-sycl device" [("library", library)]

/-- Whether the text s occurs inside the text t. -/
def occursIn (s t : String) : Bool :=
  t.data.tails.any (fun u => s.data.isPrefixOf u)

/-- Whether a record refers to a text anywhere: in its message, in an attribute
key or in an attribute value. -/
def Record.mentions (r : Record) (s : String) : Bool :=
  occursIn s r.msg || r.attrs.any (fun kv => occursIn s kv.1 || occursIn s kv.2)

/-- Go strings.Split for a one-character separator: the pieces between
consecutive separators, empty pieces included. -/
def Split (s : String) (sep : Char) : List String :=
  (s.data.splitOn sep).map String.mk

/-- Well-formed identifiers: every matching entry has a non-empty ID without a comma. -/
def WellFormedIDs {ρ : Type} (gpuInfo : List (GpuInfo ρ)) : Prop :=
  ∀ info ∈ gpuInfo, info.Library = "sycl" → info.ID ≠ "" ∧ ',' ∉ info.ID.data

/-- The property that each emitted record notes both the Library and the ID of
the skipped entry it was emitted for (entries and records paired in order). -/
def RecordsNoteFamilyAndID {ρ : Type} (gpuInfo : List (GpuInfo ρ)) : Prop :=
  List.Forall₂ (fun info r => r.mentions info.Library = true ∧ r.mentions info.ID = true)
    (skipped gpuInfo) (syclGetVisibleDevicesEnvLog gpuInfo)

/-- Two inputs agree position by position on the fields ID and Library. -/
def AgreeOnIDAndLibrary {ρ σ : Type} (xs : List (GpuInfo ρ)) (ys : List (GpuInfo σ)) : Prop :=
  List.Forall₂ (fun a b => a.ID = b.ID ∧ a.Library = b.Library) xs ys

/-! ## Sample inputs -/

/-- Entries (ID "0", sycl), (ID "1", other), (ID "2", sycl). -/
def mixedInput : List (GpuInfo Nat) :=
  [⟨"0", "sycl", 0⟩, ⟨"1", "other", 0⟩, ⟨"2", "sycl", 0⟩]

/-- Two entries of other backends and none of sycl. -/
def otherOnly : List (GpuInfo Nat) :=
  [⟨"4", "cuda", 1⟩, ⟨"5", "rocm", 2⟩]

/-- The entries of mixedInput with the skipped ID changed from "1" to "8". -/
def mixedInputOtherID : List (GpuInfo Nat) :=
  [⟨"0", "sycl", 0⟩, ⟨"8", "other", 0⟩, ⟨"2", "sycl", 0⟩]

/-- The IDs and Libraries of mixedInput with different remaining fields. -/
def mixedInputOtherRest : List (GpuInfo (String × Bool)) :=
  [⟨"0", "sycl", ("Arc A770", true)⟩, ⟨"1", "other", ("", false)⟩, ⟨"2", "sycl", ("iGPU", false)⟩]

/-- The same matching IDs as mixedInput, with other skipped entries around them. -/
def sameSelection : List (GpuInfo Nat) :=
  [⟨"9", "cuda", 4⟩, ⟨"0", "sycl", 5⟩, ⟨"2", "sycl", 6⟩, ⟨"", "rocm", 7⟩]

/-- A matching entry with an empty ID followed by a matching entry with ID "1". -/
def emptyIDInput : List (GpuInfo Nat) :=
  [⟨"", "sycl", 0⟩, ⟨"1", "sycl", 1⟩]

/-- A matching entry with ID "1" followed by a matching entry with an empty ID. -/
def trailingEmptyID : List (GpuInfo Nat) :=
  [⟨"1", "sycl", 0⟩, ⟨"", "sycl", 1⟩]

/-- Four matching entries, one of another backend among them. -/
def fourIDs : List (GpuInfo Nat) :=
  [⟨"0", "sycl", 0⟩, ⟨"10", "sycl", 1⟩, ⟨"x", "cuda", 2⟩, ⟨"2", "sycl", 3⟩, ⟨"33", "sycl", 4⟩]

/-- One matching entry whose ID is empty. -/
def oneEmptyID : List (GpuInfo Nat) :=
  [⟨"", "sycl", 0⟩]

/-- One matching entry whose ID holds a comma. -/
def oneCommaID : List (GpuInfo Nat) :=
  [⟨"a,b", "sycl", 0⟩]

/-- Two matching entries with IDs "a" and "b". -/
def twoPlainIDs : List (GpuInfo Nat) :=
  [⟨"a", "sycl", 0⟩, ⟨"b", "sycl", 1⟩]

/-- Three sycl entries, two of them with the same ID. -/
def syclOnly : List (GpuInfo Nat) :=
  [⟨"7", "sycl", 1⟩, ⟨"7", "sycl", 2⟩, ⟨"3", "sycl", 3⟩]


/-! ## The loop computes a filter -/

theorem loopBody_of_ne {ρ : Type} (st : LoopState) (info : GpuInfo ρ)
    (h : info.Library ≠ "sycl") :
    loopBody st info = { st with log := st.log ++ [skipRecord info.Library] } := by
  simp [loopBody, skipRecord, h]

theorem loopBody_of_eq {ρ : Type} (st : LoopState) (info : GpuInfo ρ)
    (h : info.Library = "sycl") :
    loopBody st info = { st with ids := st.ids ++ [info.ID] } := by
  simp [loopBody, h]

/-- Running the loop from any state appends the matching IDs to ids and one
record per skipped entry to the log. -/
theorem foldl_loopBody {ρ : Type} (gpuInfo : List (GpuInfo ρ)) (st : LoopState) :
    gpuInfo.foldl loopBody st =
      { ids := st.ids ++ matchingIDs gpuInfo,
        log := st.log ++ (skipped gpuInfo).map (fun info => skipRecord info.Library) } := by
  induction gpuInfo generalizing st with
  | nil => simp [matchingIDs, matching, skipped]
  | cons info tl ih =>
    rw [List.foldl_cons, ih]
    by_cases h : info.Library = "sycl"
    · rw [loopBody_of_eq st info h]
      simp [matchingIDs, matching, skipped, h]
    · rw [loopBody_of_ne st info h]
      simp [matchingIDs, matching, skipped, h]

theorem loopResult_ids {ρ : Type} (gpuInfo : List (GpuInfo ρ)) :
    (loopResult gpuInfo).ids = matchingIDs gpuInfo := by
  simp [loopResult, foldl_loopBody]

theorem loopResult_log {ρ : Type} (gpuInfo : List (GpuInfo ρ)) :
    (loopResult gpuInfo).log = (skipped gpuInfo).map (fun info => skipRecord info.Library) := by
  simp [loopResult, foldl_loopBody]

/-! ## strings.Join is the comma-join -/

/-- What the builder holds after the loop of Join, relative to its start. -/
theorem foldl_sep_start (sep : String) (es : List String) (e : String) :
    es.foldl (fun b s => b ++ sep ++ s) e = e ++ es.foldl (fun b s => b ++ sep ++ s) "" := by
  induction es generalizing e with
  | nil => simp
  | cons x xs ih =>
    rw [List.foldl_cons, ih, List.foldl_cons, ih ("" ++ sep ++ x)]
    simp [String.append_assoc]

theorem Join_cons_cons (a b : String) (rest : List String) (sep : String) :
    Join (a :: b :: rest) sep = a ++ sep ++ Join (b :: rest) sep := by
  cases rest with
  | nil => simp [Join]
  | cons c cs =>
    simp only [Join, List.foldl_cons]
    rw [foldl_sep_start sep cs (a ++ sep ++ b ++ sep ++ c), foldl_sep_start sep cs (b ++ sep ++ c)]
    simp [String.append_assoc]

theorem Join_eq_commaJoin (ids : List String) : Join ids "," = commaJoin ids := by
  induction ids with
  | nil => rfl
  | cons a tl ih =>
    cases tl with
    | nil => rfl
    | cons b rest => rw [Join_cons_cons, ih, commaJoin]

theorem commaJoin_data (ids : List String) :
    (commaJoin ids).data = [','].intercalate (ids.map String.data) := by
  induction ids with
  | nil => rfl
  | cons a tl ih =>
    cases tl with
    | nil => simp [commaJoin, List.intercalate]
    | cons b rest =>
      rw [commaJoin, String.data_append, String.data_append, ih]
      simp [List.intercalate]

theorem commaJoin_length (ids : List String) :
    (commaJoin ids).length = (ids.map String.length).sum + (ids.length - 1) := by
  induction ids with
  | nil => rfl
  | cons a tl ih =>
    cases tl with
    | nil => simp [commaJoin]
    | cons b rest =>
      rw [commaJoin, String.length_append, String.length_append, ih]
      simp only [List.map_cons, List.sum_cons, List.length_cons]
      have : (",".length) = 1 := rfl
      omega

theorem utf8ByteSize_append (s t : String) :
    (s ++ t).utf8ByteSize = s.utf8ByteSize + t.utf8ByteSize := by
  obtain ⟨cs⟩ := s
  obtain ⟨ct⟩ := t
  show String.utf8ByteSize ⟨cs ++ ct⟩ = _
  simp only [String.utf8ByteSize_mk, String.utf8Len_append]

/-- The same count in bytes of the UTF-8 encoding, the unit of Go len. -/
theorem commaJoin_utf8ByteSize (ids : List String) :
    (commaJoin ids).utf8ByteSize = (ids.map String.utf8ByteSize).sum + (ids.length - 1) := by
  induction ids with
  | nil => rfl
  | cons a tl ih =>
    cases tl with
    | nil => simp [commaJoin]
    | cons b rest =>
      rw [commaJoin, utf8ByteSize_append, utf8ByteSize_append, ih]
      simp only [List.map_cons, List.sum_cons, List.length_cons]
      have : (",".utf8ByteSize) = 1 := by decide
      omega

theorem valueSuffix_value (s : String) : valueSuffix ("level_zero:" ++ s) = s := by
  apply String.ext
  simp only [valueSuffix, String.data_append]
  exact List.drop_left' rfl

/-- The returned pair in closed form. -/
theorem syclGetVisibleDevicesEnv_eq {ρ : Type} (gpuInfo : List (GpuInfo ρ)) :
    syclGetVisibleDevicesEnv gpuInfo =
      ("ONEAPI_DEVICE_SELECTOR", "level_zero:" ++ commaJoin (matchingIDs gpuInfo)) := by
  simp [syclGetVisibleDevicesEnv, loopResult_ids, Join_eq_commaJoin]

theorem commaJoin_eq_intercalate (ids : List String) : commaJoin ids = ",".intercalate ids := by
  apply String.ext
  rw [commaJoin_data]
  cases ids with
  | nil => rfl
  | cons a tl =>
    have key : ∀ (l : List String) (acc : String),
        (String.intercalate.go acc "," l).data =
          acc.data ++ (l.map (fun s => ',' :: s.data)).flatten := by
      intro l
      induction l with
      | nil => intro acc; simp [String.intercalate.go]
      | cons x xs ih =>
        intro acc
        rw [String.intercalate.go, ih]
        simp [String.data_append]
    rw [String.intercalate, key]
    clear key
    induction tl generalizing a with
    | nil => simp [List.intercalate]
    | cons b rest ih =>
      have h := ih b
      simp only [List.intercalate, List.map_cons, List.intersperse_cons_cons,
        List.flatten_cons] at h ⊢
      rw [h]
      simp

theorem skipped_length_add_matching_length {ρ : Type} (gpuInfo : List (GpuInfo ρ)) :
    (skipped gpuInfo).length + (matching gpuInfo).length = gpuInfo.length := by
  induction gpuInfo with
  | nil => rfl
  | cons info tl ih =>
    by_cases h : info.Library = "sycl"
    · simp only [skipped, matching] at ih ⊢
      simp [h]
      omega
    · simp only [skipped, matching] at ih ⊢
      simp [h]
      omega

theorem matching_eq_nil {ρ : Type} (gpuInfo : List (GpuInfo ρ))
    (h : ∀ info ∈ gpuInfo, info.Library ≠ "sycl") : matching gpuInfo = [] := by
  simp only [matching, List.filter_eq_nil_iff]
  intro info hmem
  simpa using h info hmem

theorem skipped_eq_nil {ρ : Type} (gpuInfo : List (GpuInfo ρ))
    (h : ∀ info ∈ gpuInfo, info.Library = "sycl") : skipped gpuInfo = [] := by
  simp only [skipped, List.filter_eq_nil_iff]
  intro info hmem
  simpa using h info hmem

theorem matching_idem {ρ : Type} (gpuInfo : List (GpuInfo ρ)) :
    matching (matching gpuInfo) = matching gpuInfo := by
  simp [matching]

theorem matching_append {ρ : Type} (xs ys : List (GpuInfo ρ)) :
    matching (xs ++ ys) = matching xs ++ matching ys := by
  simp [matching]

/-! ## Claims -/

/-- C1: for every input list, the second component of the result is "level_zero:"
followed by the comma-join, in input order, of the IDs of exactly the entries
whose Library is "sycl"; entries of any other Library contribute nothing and
duplicates are kept. The comma-join is the library intercalation with ",". -/
theorem C1_value_is_prefixed_comma_join {ρ : Type} (gpuInfo : List (GpuInfo ρ)) :
    (syclGetVisibleDevicesEnv gpuInfo).2 =
        "level_zero:" ++ commaJoin
          ((gpuInfo.filter (fun info => info.Library == "sycl")).map (fun info => info.ID))
      ∧ valueSuffix (syclGetVisibleDevicesEnv gpuInfo).2 = commaJoin (matchingIDs gpuInfo)
      ∧ commaJoin (matchingIDs gpuInfo) = ",".intercalate (matchingIDs gpuInfo)
      ∧ (syclGetVisibleDevicesEnv (syclOnly ++ otherOnly)).2 = "level_zero:7,7,3" := by
  have h := syclGetVisibleDevicesEnv_eq gpuInfo
  refine ⟨?_, ?_, commaJoin_eq_intercalate _, by decide⟩
  · rw [h]; rfl
  · rw [h]; exact valueSuffix_value _

/-- C2: for every input list the function returns a pair whose first component
is the constant "ONEAPI_DEVICE_SELECTOR" and whose second component begins with
"level_zero:". -/
theorem C2_fixed_name_and_value_start {ρ : Type} (gpuInfo : List (GpuInfo ρ)) :
    (syclGetVisibleDevicesEnv gpuInfo).1 = "ONEAPI_DEVICE_SELECTOR"
      ∧ "level_zero:".data <+: (syclGetVisibleDevicesEnv gpuInfo).2.data
      ∧ ∃ rest : String, (syclGetVisibleDevicesEnv gpuInfo).2 = "level_zero:" ++ rest := by
  refine ⟨rfl, ?_, ⟨Join (loopResult gpuInfo).ids ",", rfl⟩⟩
  simp only [syclGetVisibleDevicesEnv, String.data_append]
  exact List.prefix_append _ _

/-- C3: for the empty input list, and for every input list without an entry
whose Library is "sycl", the result is exactly
("ONEAPI_DEVICE_SELECTOR", "level_zero:"). -/
theorem C3_no_matching_entry {ρ : Type} (gpuInfo : List (GpuInfo ρ))
    (h : ∀ info ∈ gpuInfo, info.Library ≠ "sycl") :
    syclGetVisibleDevicesEnv ([] : List (GpuInfo ρ)) = ("ONEAPI_DEVICE_SELECTOR", "level_zero:")
      ∧ syclGetVisibleDevicesEnv gpuInfo = ("ONEAPI_DEVICE_SELECTOR", "level_zero:") := by
  refine ⟨rfl, ?_⟩
  rw [syclGetVisibleDevicesEnv_eq, matchingIDs, matching_eq_nil gpuInfo h]
  rfl

theorem C3_no_matching_entry_witness :
    (∀ info ∈ otherOnly, info.Library ≠ "sycl")
      ∧ syclGetVisibleDevicesEnv otherOnly = ("ONEAPI_DEVICE_SELECTOR", "level_zero:") :=
  ⟨by decide, (C3_no_matching_entry otherOnly (by decide)).2⟩

/-- C4: skipped entries never affect the result: the pair returned for a list
equals the pair returned for the list with all entries of a Library other than
"sycl" removed, inserting such entries anywhere leaves the pair unchanged, and
(ID "0", sycl), (ID "1", other), (ID "2", sycl) give
("ONEAPI_DEVICE_SELECTOR", "level_zero:0,2"). -/
theorem C4_skipped_entries_do_not_matter {ρ : Type} (gpuInfo : List (GpuInfo ρ)) :
    syclGetVisibleDevicesEnv gpuInfo =
        syclGetVisibleDevicesEnv (gpuInfo.filter (fun info => info.Library == "sycl"))
      ∧ (∀ before extra after : List (GpuInfo ρ),
          (∀ info ∈ extra, info.Library ≠ "sycl") →
            syclGetVisibleDevicesEnv (before ++ extra ++ after) =
              syclGetVisibleDevicesEnv (before ++ after))
      ∧ syclGetVisibleDevicesEnv mixedInput = ("ONEAPI_DEVICE_SELECTOR", "level_zero:0,2") := by
  refine ⟨?_, ?_, by decide⟩
  · have h := matching_idem gpuInfo
    rw [syclGetVisibleDevicesEnv_eq, syclGetVisibleDevicesEnv_eq]
    simp only [matchingIDs]
    rw [show gpuInfo.filter (fun info => info.Library == "sycl") = matching gpuInfo from rfl, h]
  · intro before extra after hextra
    rw [syclGetVisibleDevicesEnv_eq, syclGetVisibleDevicesEnv_eq]
    simp only [matchingIDs, matching_append, matching_eq_nil extra hextra, List.append_nil]

theorem C4_skipped_entries_do_not_matter_witness :
    (∀ info ∈ otherOnly, info.Library ≠ "sycl")
      ∧ syclGetVisibleDevicesEnv (mixedInput ++ otherOnly ++ syclOnly) =
          syclGetVisibleDevicesEnv (mixedInput ++ syclOnly)
      ∧ syclGetVisibleDevicesEnv mixedInput =
          syclGetVisibleDevicesEnv (mixedInput.filter (fun info => info.Library == "sycl")) :=
  ⟨by decide,
   (C4_skipped_entries_do_not_matter mixedInput).2.1 mixedInput otherOnly syclOnly (by decide),
   (C4_skipped_entries_do_not_matter mixedInput).1⟩

/-- C5: with the debug log as an explicit output sequence, the function emits
exactly one record per entry whose Library is not "sycl", in input order, and
none for a matching entry: the number of records is the number of non-matching
entries, zero for an empty or all-sycl input, and the list length for an input
with only non-matching entries. -/
theorem C5_one_record_per_skipped_entry {ρ : Type} (gpuInfo : List (GpuInfo ρ)) :
    syclGetVisibleDevicesEnvLog gpuInfo =
        (gpuInfo.filter (fun info => info.Library != "sycl")).map
          (fun info => skipRecord info.Library)
      ∧ (syclGetVisibleDevicesEnvLog gpuInfo).length =
          gpuInfo.countP (fun info => info.Library != "sycl")
      ∧ (syclGetVisibleDevicesEnvLog gpuInfo).length + (matching gpuInfo).length = gpuInfo.length
      ∧ syclGetVisibleDevicesEnvLog ([] : List (GpuInfo ρ)) = []
      ∧ ((∀ info ∈ gpuInfo, info.Library = "sycl") → syclGetVisibleDevicesEnvLog gpuInfo = [])
      ∧ ((∀ info ∈ gpuInfo, info.Library ≠ "sycl") →
          (syclGetVisibleDevicesEnvLog gpuInfo).length = gpuInfo.length) := by
  have hlog : syclGetVisibleDevicesEnvLog gpuInfo =
      (skipped gpuInfo).map (fun info => skipRecord info.Library) := loopResult_log gpuInfo
  have hlen := skipped_length_add_matching_length gpuInfo
  refine ⟨hlog, ?_, ?_, rfl, ?_, ?_⟩
  · rw [hlog, List.length_map, skipped, List.countP_eq_length_filter]
  · rw [hlog, List.length_map]; exact hlen
  · intro h
    rw [hlog, skipped_eq_nil gpuInfo h]; rfl
  · intro h
    rw [hlog, List.length_map]
    rw [matching_eq_nil gpuInfo h] at hlen
    simpa using hlen

theorem C5_one_record_per_skipped_entry_witness :
    ((∀ info ∈ syclOnly, info.Library = "sycl") ∧ syclGetVisibleDevicesEnvLog syclOnly = [])
      ∧ ((∀ info ∈ otherOnly, info.Library ≠ "sycl")
          ∧ (syclGetVisibleDevicesEnvLog otherOnly).length = otherOnly.length)
      ∧ syclGetVisibleDevicesEnvLog mixedInput = [skipRecord "other"] :=
  ⟨⟨by decide, (C5_one_record_per_skipped_entry syclOnly).2.2.2.2.1 (by decide)⟩,
   ⟨by decide, (C5_one_record_per_skipped_entry otherOnly).2.2.2.2.2 (by decide)⟩,
   (C5_one_record_per_skipped_entry mixedInput).1⟩

/-! ## Records -/

theorem occursIn_self (s : String) : occursIn s s = true := by
  unfold occursIn
  rw [List.any_eq_true]
  refine ⟨s.data, ?_, ?_⟩
  · cases h : s.data with
    | nil => simp
    | cons c cs => simp [List.tails]
  · rw [List.isPrefixOf_iff_prefix]

theorem skipRecord_mentions (library : String) : (skipRecord library).mentions library = true := by
  simp [Record.mentions, skipRecord, slogDebug, occursIn_self]

theorem forall₂_map_self {α β : Type} (f : α → β) (l : List α) :
    List.Forall₂ (fun a b => b = f a) l (l.map f) := by
  induction l with
  | nil => exact List.Forall₂.nil
  | cons a tl ih => exact List.Forall₂.cons rfl ih

/-- Pointwise agreement on ID and Library gives the same matching IDs and the
same Libraries of skipped entries. -/
theorem agree_matchingIDs_skipped {ρ σ : Type} (xs : List (GpuInfo ρ)) (ys : List (GpuInfo σ))
    (h : AgreeOnIDAndLibrary xs ys) :
    matchingIDs xs = matchingIDs ys ∧
      (skipped xs).map (fun info => info.Library) = (skipped ys).map (fun info => info.Library) := by
  unfold AgreeOnIDAndLibrary at h
  induction h with
  | nil => exact ⟨rfl, rfl⟩
  | @cons a b l₁ l₂ hab _ ih =>
    obtain ⟨hid, hlib⟩ := hab
    obtain ⟨ih₁, ih₂⟩ := ih
    simp only [matchingIDs, matching, skipped] at ih₁ ih₂ ⊢
    by_cases hs : b.Library = "sycl"
    · simp [hlib, hs, hid, ih₁, ih₂]
    · simp [hlib, hs, ih₁, ih₂]

theorem log_of_libraries {ρ σ : Type} (xs : List (GpuInfo ρ)) (ys : List (GpuInfo σ))
    (h : (skipped xs).map (fun info => info.Library) = (skipped ys).map (fun info => info.Library)) :
    syclGetVisibleDevicesEnvLog xs = syclGetVisibleDevicesEnvLog ys := by
  have e : ∀ {τ : Type} (l : List (GpuInfo τ)),
      l.map (fun info => skipRecord info.Library) =
        (l.map (fun info => info.Library)).map skipRecord := by
    intro τ l; simp
  unfold syclGetVisibleDevicesEnvLog
  rw [loopResult_log, loopResult_log, e, e, h]

theorem skipped_libraries_of_libraries {ρ σ : Type} (xs : List (GpuInfo ρ)) (ys : List (GpuInfo σ))
    (h : xs.map (fun info => info.Library) = ys.map (fun info => info.Library)) :
    (skipped xs).map (fun info => info.Library) = (skipped ys).map (fun info => info.Library) := by
  have e : ∀ {τ : Type} (l : List (GpuInfo τ)),
      (skipped l).map (fun info => info.Library) =
        (l.map (fun info => info.Library)).filter (fun lib => lib != "sycl") := by
    intro τ l
    simp only [skipped, List.filter_map]
    rfl
  rw [e, e, h]

/-! ## Claims, continued -/

/-- C6 as stated fails: for (ID "0", sycl), (ID "1", other), (ID "2", sycl) the
single record emitted holds the message and library "other" and has no
occurrence of the skipped ID "1"; changing that ID leaves the record unchanged. -/
theorem C6_record_does_not_note_ID_counterexample :
    syclGetVisibleDevicesEnvLog mixedInput =
        [slogDebug "syclGetVisibleDevicesEnv skipping over non-sycl device" [("library", "other")]]
      ∧ (slogDebug "syclGetVisibleDevicesEnv skipping over non-sycl device"
          [("library", "other")]).mentions "1" = false
      ∧ syclGetVisibleDevicesEnvLog mixedInputOtherID = syclGetVisibleDevicesEnvLog mixedInput
      ∧ ¬ RecordsNoteFamilyAndID mixedInput := by
  refine ⟨by decide, by decide, by decide, ?_⟩
  unfold RecordsNoteFamilyAndID
  decide

/-- C6 (amended): every diagnostic record emitted for a skipped entry is the
debug record with the fixed message and the single attribute "library" holding
the entry's Library, so it notes the mismatched family; it is determined by the
Libraries alone and so carries no ID: inputs with the same Libraries position by
position emit the same records, and for (ID "0", sycl), (ID "1", other),
(ID "2", sycl) the single record has library "other" and no occurrence of "1". -/
theorem C6_record_notes_family_only {ρ : Type} (gpuInfo : List (GpuInfo ρ)) :
    List.Forall₂
        (fun info r =>
          r = slogDebug "syclGetVisibleDevicesEnv skipping over non-sycl device"
                [("library", info.Library)]
            ∧ r.mentions info.Library = true)
        (gpuInfo.filter (fun info => info.Library != "sycl"))
        (syclGetVisibleDevicesEnvLog gpuInfo)
      ∧ (∀ other : List (GpuInfo ρ),
          other.map (fun info => info.Library) = gpuInfo.map (fun info => info.Library) →
            syclGetVisibleDevicesEnvLog other = syclGetVisibleDevicesEnvLog gpuInfo)
      ∧ syclGetVisibleDevicesEnvLog mixedInput = [skipRecord "other"]
      ∧ (skipRecord "other").mentions "other" = true
      ∧ (skipRecord "other").mentions "1" = false := by
  refine ⟨?_, ?_, by decide, by decide, by decide⟩
  · have hlog : syclGetVisibleDevicesEnvLog gpuInfo =
        (skipped gpuInfo).map (fun info => skipRecord info.Library) := loopResult_log gpuInfo
    rw [hlog]
    have h := forall₂_map_self (fun info : GpuInfo ρ => skipRecord info.Library) (skipped gpuInfo)
    refine List.Forall₂.imp ?_ h
    intro info r hr
    subst hr
    exact ⟨rfl, skipRecord_mentions info.Library⟩
  · intro other h
    exact log_of_libraries other gpuInfo (skipped_libraries_of_libraries other gpuInfo h)

theorem C6_record_notes_family_only_witness :
    mixedInputOtherID.map (fun info => info.Library) = mixedInput.map (fun info => info.Library)
      ∧ syclGetVisibleDevicesEnvLog mixedInputOtherID = syclGetVisibleDevicesEnvLog mixedInput :=
  ⟨by decide, (C6_record_notes_family_only mixedInput).2.1 mixedInputOtherID (by decide)⟩

/-- C8: the function depends only on the fields ID and Library: two inputs of
equal length that agree position by position on ID and Library, whatever their
other fields, give identical pairs and identical diagnostic sequences; the
result is a function of the input, so two calls on one list agree. -/
theorem C8_depends_only_on_ID_and_Library {ρ σ : Type}
    (xs : List (GpuInfo ρ)) (ys : List (GpuInfo σ))
    (h : List.Forall₂ (fun a b => a.ID = b.ID ∧ a.Library = b.Library) xs ys) :
    syclGetVisibleDevicesEnv xs = syclGetVisibleDevicesEnv ys
      ∧ syclGetVisibleDevicesEnvLog xs = syclGetVisibleDevicesEnvLog ys := by
  obtain ⟨h₁, h₂⟩ := agree_matchingIDs_skipped xs ys h
  refine ⟨?_, log_of_libraries xs ys h₂⟩
  rw [syclGetVisibleDevicesEnv_eq, syclGetVisibleDevicesEnv_eq, h₁]

theorem C8_depends_only_on_ID_and_Library_witness :
    List.Forall₂ (fun a b => a.ID = b.ID ∧ a.Library = b.Library) mixedInput mixedInputOtherRest
      ∧ syclGetVisibleDevicesEnv mixedInput = syclGetVisibleDevicesEnv mixedInputOtherRest
      ∧ syclGetVisibleDevicesEnvLog mixedInput = syclGetVisibleDevicesEnvLog mixedInputOtherRest :=
  ⟨by decide, C8_depends_only_on_ID_and_Library mixedInput mixedInputOtherRest (by decide)⟩

/-! ## Splitting the value -/

theorem commaJoin_cons_data (a : String) (tl : List String) :
    ∃ r : List Char, (commaJoin (a :: tl)).data = a.data ++ r := by
  cases tl with
  | nil => exact ⟨[], by simp [commaJoin]⟩
  | cons b rest =>
    exact ⟨(",".data ++ (commaJoin (b :: rest)).data), by
      rw [commaJoin, String.data_append, String.data_append, List.append_assoc]⟩

theorem commaJoin_eq_empty (ids : List String) (hne : ∀ s ∈ ids, s ≠ "")
    (h : commaJoin ids = "") : ids = [] := by
  cases ids with
  | nil => rfl
  | cons a tl =>
    exfalso
    obtain ⟨r, hr⟩ := commaJoin_cons_data a tl
    rw [h] at hr
    have ha : a.data = [] := (List.append_eq_nil.mp hr.symm).1
    exact hne a (List.mem_cons_self a tl) (String.ext ha)

theorem splitOn_commaJoin (ids : List String) (hne : ids ≠ [])
    (hc : ∀ s ∈ ids, ',' ∉ s.data) :
    (commaJoin ids).data.splitOn ',' = ids.map String.data := by
  rw [commaJoin_data]
  apply List.splitOn_intercalate
  · intro l hl
    obtain ⟨s, hs, rfl⟩ := List.mem_map.mp hl
    exact hc s hs
  · simpa using hne

theorem map_mk_map_data (ids : List String) : (ids.map String.data).map String.mk = ids := by
  induction ids with
  | nil => rfl
  | cons a tl ih => rw [List.map_cons, List.map_cons, ih]

theorem commaJoin_injective (ids₁ ids₂ : List String)
    (h₁ : ∀ s ∈ ids₁, s ≠ "" ∧ ',' ∉ s.data) (h₂ : ∀ s ∈ ids₂, s ≠ "" ∧ ',' ∉ s.data)
    (h : commaJoin ids₁ = commaJoin ids₂) : ids₁ = ids₂ := by
  by_cases e₁ : ids₁ = []
  · subst e₁
    exact (commaJoin_eq_empty ids₂ (fun s hs => (h₂ s hs).1) h.symm).symm
  · by_cases e₂ : ids₂ = []
    · subst e₂
      exact commaJoin_eq_empty ids₁ (fun s hs => (h₁ s hs).1) h
    · have s₁ := splitOn_commaJoin ids₁ e₁ (fun s hs => (h₁ s hs).2)
      have s₂ := splitOn_commaJoin ids₂ e₂ (fun s hs => (h₂ s hs).2)
      rw [h, s₂] at s₁
      rw [← map_mk_map_data ids₁, ← map_mk_map_data ids₂, s₁]

theorem wellFormed_matchingIDs {ρ : Type} (gpuInfo : List (GpuInfo ρ))
    (h : WellFormedIDs gpuInfo) : ∀ s ∈ matchingIDs gpuInfo, s ≠ "" ∧ ',' ∉ s.data := by
  intro s hs
  simp only [matchingIDs, matching, List.mem_map, List.mem_filter] at hs
  obtain ⟨info, ⟨hmem, hlib⟩, rfl⟩ := hs
  exact h info hmem (by simpa using hlib)

/-! ## Claims, continued -/

/-- C10: under well-formed IDs (every entry whose Library is "sycl" has a
non-empty ID without a comma) the selection is recoverable from the value: two
inputs with the same returned value have the same sequence of matching IDs, and
splitting the part after "level_zero:" on "," gives exactly the matching IDs
when there is at least one. -/
theorem C10_selection_recoverable {ρ σ : Type}
    (xs : List (GpuInfo ρ)) (ys : List (GpuInfo σ))
    (hxs : WellFormedIDs xs) (hys : WellFormedIDs ys) :
    ((syclGetVisibleDevicesEnv xs).2 = (syclGetVisibleDevicesEnv ys).2 →
        matchingIDs xs = matchingIDs ys)
      ∧ (matchingIDs xs ≠ [] →
          Split (valueSuffix (syclGetVisibleDevicesEnv xs).2) ',' = matchingIDs xs) := by
  have wx := wellFormed_matchingIDs xs hxs
  have wy := wellFormed_matchingIDs ys hys
  have vx : valueSuffix (syclGetVisibleDevicesEnv xs).2 = commaJoin (matchingIDs xs) := by
    rw [syclGetVisibleDevicesEnv_eq]; exact valueSuffix_value _
  have vy : valueSuffix (syclGetVisibleDevicesEnv ys).2 = commaJoin (matchingIDs ys) := by
    rw [syclGetVisibleDevicesEnv_eq]; exact valueSuffix_value _
  refine ⟨?_, ?_⟩
  · intro h
    apply commaJoin_injective _ _ wx wy
    rw [← vx, ← vy, h]
  · intro hne
    rw [vx, Split, splitOn_commaJoin _ hne (fun s hs => (wx s hs).2), map_mk_map_data]

theorem C10_selection_recoverable_witness :
    (WellFormedIDs mixedInput ∧ WellFormedIDs sameSelection)
      ∧ ((syclGetVisibleDevicesEnv mixedInput).2 = (syclGetVisibleDevicesEnv sameSelection).2
        ∧ matchingIDs mixedInput = matchingIDs sameSelection)
      ∧ (matchingIDs mixedInput ≠ []
        ∧ Split (valueSuffix (syclGetVisibleDevicesEnv mixedInput).2) ',' = ["0", "2"]) :=
  ⟨⟨by unfold WellFormedIDs; decide, by unfold WellFormedIDs; decide⟩,
   ⟨by decide,
    (C10_selection_recoverable mixedInput sameSelection
      (by unfold WellFormedIDs; decide) (by unfold WellFormedIDs; decide)).1 (by decide)⟩,
   ⟨by decide,
    (C10_selection_recoverable mixedInput sameSelection
      (by unfold WellFormedIDs; decide) (by unfold WellFormedIDs; decide)).2 (by decide)⟩⟩

/-! ## Concatenation of inputs -/

theorem commaJoin_append (l₁ l₂ : List String) (h₁ : l₁ ≠ []) (h₂ : l₂ ≠ []) :
    commaJoin (l₁ ++ l₂) = commaJoin l₁ ++ "," ++ commaJoin l₂ := by
  induction l₁ with
  | nil => exact absurd rfl h₁
  | cons a tl ih =>
    cases tl with
    | nil =>
      cases l₂ with
      | nil => exact absurd rfl h₂
      | cons b rest => simp [commaJoin]
    | cons c rest =>
      have hrec := ih (List.cons_ne_nil c rest)
      rw [List.cons_append, List.cons_append, commaJoin, ← List.cons_append, hrec, commaJoin]
      simp [String.append_assoc]

theorem matchingIDs_append {ρ : Type} (xs ys : List (GpuInfo ρ)) :
    matchingIDs (xs ++ ys) = matchingIDs xs ++ matchingIDs ys := by
  simp [matchingIDs, matching_append]

theorem matchingIDs_ne_nil_iff {ρ : Type} (gpuInfo : List (GpuInfo ρ)) :
    matchingIDs gpuInfo ≠ [] ↔ ∃ info ∈ gpuInfo, info.Library = "sycl" := by
  constructor
  · intro h
    by_contra hno
    apply h
    have hall : ∀ info ∈ gpuInfo, info.Library ≠ "sycl" := by
      intro info hmem hlib
      exact hno ⟨info, hmem, hlib⟩
    simp [matchingIDs, matching_eq_nil gpuInfo hall]
  · rintro ⟨info, hmem, hlib⟩ h
    have hin : info ∈ matching gpuInfo := by
      simp [matching, hmem, hlib]
    have hnil : matching gpuInfo = [] := by
      simpa [matchingIDs] using h
    rw [hnil] at hin
    exact absurd hin (List.not_mem_nil info)

theorem valueSuffix_eq {ρ : Type} (gpuInfo : List (GpuInfo ρ)) :
    valueSuffix (syclGetVisibleDevicesEnv gpuInfo).2 = commaJoin (matchingIDs gpuInfo) := by
  rw [syclGetVisibleDevicesEnv_eq]; exact valueSuffix_value _

/-! ## Claims, continued -/

/-- C11: without well-formed IDs the value is ambiguous: an input with no sycl
entry and an input whose only sycl entry has an empty ID both give
("ONEAPI_DEVICE_SELECTOR", "level_zero:"), and one sycl entry with ID "a,b"
gives the same pair as two sycl entries with IDs "a" and "b", although the
sequences of matching IDs differ in both cases. -/
theorem C11_value_ambiguous_without_wellformedness :
    (syclGetVisibleDevicesEnv otherOnly = ("ONEAPI_DEVICE_SELECTOR", "level_zero:")
        ∧ syclGetVisibleDevicesEnv oneEmptyID = ("ONEAPI_DEVICE_SELECTOR", "level_zero:")
        ∧ matchingIDs otherOnly ≠ matchingIDs oneEmptyID)
      ∧ (syclGetVisibleDevicesEnv oneCommaID = syclGetVisibleDevicesEnv twoPlainIDs
        ∧ matchingIDs oneCommaID ≠ matchingIDs twoPlainIDs)
      ∧ (∃ xs ys : List (GpuInfo Nat),
          matchingIDs xs ≠ matchingIDs ys
            ∧ syclGetVisibleDevicesEnv xs = syclGetVisibleDevicesEnv ys)
      ∧ ¬ WellFormedIDs oneEmptyID ∧ ¬ WellFormedIDs oneCommaID := by
  refine ⟨⟨by decide, by decide, by decide⟩, ⟨by decide, by decide⟩,
    ⟨oneCommaID, twoPlainIDs, by decide, by decide⟩, ?_, ?_⟩
  · unfold WellFormedIDs; decide
  · unfold WellFormedIDs; decide

/-- C12: concatenation law. With suffix(l) the returned value without its
leading "level_zero:", if xs and ys each hold an entry whose Library is "sycl"
then suffix(xs ++ ys) = suffix(xs) ++ "," ++ suffix(ys); if either holds none
then suffix(xs ++ ys) = suffix(xs) ++ suffix(ys); and the diagnostic sequence of
xs ++ ys is that of xs followed by that of ys. -/
theorem C12_concatenation_law {ρ : Type} (xs ys : List (GpuInfo ρ)) :
    (((∃ info ∈ xs, info.Library = "sycl") ∧ (∃ info ∈ ys, info.Library = "sycl")) →
        valueSuffix (syclGetVisibleDevicesEnv (xs ++ ys)).2 =
          valueSuffix (syclGetVisibleDevicesEnv xs).2 ++ "," ++
            valueSuffix (syclGetVisibleDevicesEnv ys).2)
      ∧ (((¬ ∃ info ∈ xs, info.Library = "sycl") ∨ (¬ ∃ info ∈ ys, info.Library = "sycl")) →
          valueSuffix (syclGetVisibleDevicesEnv (xs ++ ys)).2 =
            valueSuffix (syclGetVisibleDevicesEnv xs).2 ++
              valueSuffix (syclGetVisibleDevicesEnv ys).2)
      ∧ syclGetVisibleDevicesEnvLog (xs ++ ys) =
          syclGetVisibleDevicesEnvLog xs ++ syclGetVisibleDevicesEnvLog ys := by
  refine ⟨?_, ?_, ?_⟩
  · rintro ⟨hx, hy⟩
    rw [valueSuffix_eq, valueSuffix_eq, valueSuffix_eq, matchingIDs_append]
    exact commaJoin_append _ _ ((matchingIDs_ne_nil_iff xs).mpr hx)
      ((matchingIDs_ne_nil_iff ys).mpr hy)
  · intro h
    rw [valueSuffix_eq, valueSuffix_eq, valueSuffix_eq, matchingIDs_append]
    rcases h with hx | hy
    · have hnil : matchingIDs xs = [] := by
        by_contra hne
        exact hx ((matchingIDs_ne_nil_iff xs).mp hne)
      rw [hnil]
      simp [commaJoin]
    · have hnil : matchingIDs ys = [] := by
        by_contra hne
        exact hy ((matchingIDs_ne_nil_iff ys).mp hne)
      rw [hnil]
      simp [commaJoin]
  · unfold syclGetVisibleDevicesEnvLog
    rw [loopResult_log, loopResult_log, loopResult_log]
    simp [skipped]

theorem C12_concatenation_law_witness :
    (((∃ info ∈ mixedInput, info.Library = "sycl") ∧ (∃ info ∈ syclOnly, info.Library = "sycl"))
        ∧ valueSuffix (syclGetVisibleDevicesEnv (mixedInput ++ syclOnly)).2 =
            valueSuffix (syclGetVisibleDevicesEnv mixedInput).2 ++ "," ++
              valueSuffix (syclGetVisibleDevicesEnv syclOnly).2)
      ∧ (((¬ ∃ info ∈ otherOnly, info.Library = "sycl")
            ∨ (¬ ∃ info ∈ mixedInput, info.Library = "sycl"))
        ∧ valueSuffix (syclGetVisibleDevicesEnv (otherOnly ++ mixedInput)).2 =
            valueSuffix (syclGetVisibleDevicesEnv otherOnly).2 ++
              valueSuffix (syclGetVisibleDevicesEnv mixedInput).2)
      ∧ syclGetVisibleDevicesEnvLog (mixedInput ++ otherOnly) =
          syclGetVisibleDevicesEnvLog mixedInput ++ syclGetVisibleDevicesEnvLog otherOnly :=
  ⟨⟨⟨by decide, by decide⟩,
    (C12_concatenation_law mixedInput syclOnly).1 ⟨by decide, by decide⟩⟩,
   ⟨Or.inl (by decide), (C12_concatenation_law otherOnly mixedInput).2.1 (Or.inl (by decide))⟩,
   (C12_concatenation_law mixedInput otherOnly).2.2⟩

/-! ## Where the separators stand -/

/-- The join seen from the first item: every later item has one "," in front. -/
theorem commaJoin_cons_foldr (a : String) (rest : List String) :
    commaJoin (a :: rest) = a ++ rest.foldr (fun s acc => "," ++ s ++ acc) "" := by
  induction rest generalizing a with
  | nil => simp [commaJoin]
  | cons b r ih =>
    rw [commaJoin, ih b, List.foldr_cons]
    simp [String.append_assoc]

/-- The join seen from the last item: every earlier item has one "," behind. -/
theorem commaJoin_concat_foldr (front : List String) (z : String) :
    commaJoin (front ++ [z]) = front.foldr (fun s acc => s ++ "," ++ acc) z := by
  induction front with
  | nil => simp [commaJoin]
  | cons a t ih =>
    cases t with
    | nil => simp [commaJoin]
    | cons c r =>
      rw [List.cons_append, List.cons_append, commaJoin, ← List.cons_append, ih]
      simp [String.append_assoc]

theorem commaJoin_count (ids : List String) :
    (commaJoin ids).data.count ',' =
      (ids.map (fun s => s.data.count ',')).sum + (ids.length - 1) := by
  induction ids with
  | nil => rfl
  | cons a tl ih =>
    cases tl with
    | nil => simp [commaJoin]
    | cons b rest =>
      rw [commaJoin, String.data_append, String.data_append, List.count_append,
        List.count_append, ih]
      have hc : (",".data).count ',' = 1 := by decide
      rw [hc]
      simp only [List.map_cons, List.sum_cons, List.length_cons]
      omega

/-- The join around one item in the middle. -/
theorem commaJoin_middle (l₁ l₂ : List String) (x : String) :
    commaJoin (l₁ ++ x :: l₂) =
      (if l₁ = [] then "" else commaJoin l₁ ++ ",") ++ x ++
        (if l₂ = [] then "" else "," ++ commaJoin l₂) := by
  have hx : commaJoin (x :: l₂) = x ++ (if l₂ = [] then "" else "," ++ commaJoin l₂) := by
    cases l₂ with
    | nil => simp [commaJoin]
    | cons b r => simp [commaJoin, String.append_assoc]
  by_cases h₁ : l₁ = []
  · subst h₁
    simp [hx]
  · rw [commaJoin_append l₁ (x :: l₂) h₁ (List.cons_ne_nil x l₂), hx]
    simp [h₁, String.append_assoc]

theorem matchingIDs_cons_of_eq {ρ : Type} (entry : GpuInfo ρ) (after : List (GpuInfo ρ))
    (h : entry.Library = "sycl") :
    matchingIDs (entry :: after) = entry.ID :: matchingIDs after := by
  simp [matchingIDs, matching, h]

theorem any_sycl_eq_false_iff {ρ : Type} (gpuInfo : List (GpuInfo ρ)) :
    gpuInfo.any (fun info => info.Library == "sycl") = false ↔ matchingIDs gpuInfo = [] := by
  rw [← not_iff_not, ← ne_eq (matchingIDs gpuInfo), matchingIDs_ne_nil_iff]
  simp

/-! ## Claims, continued -/

/-- C7: separators stand only between consecutive identifiers, none before the
first and none after the last. With N matching entries, N at least 1, the part
of the value after "level_zero:" has length the sum of the lengths of the N IDs
plus N - 1, counted in characters and equally in bytes; it has length 0 when
N = 0; for exactly three matching IDs a, b, c it is a ++ "," ++ b ++ "," ++ c.
For every N it is the first ID followed by "," and ID for each later one, and
equally each ID but the last followed by ",", then the last ID; it holds
N - 1 commas beyond those inside the IDs; it is empty when no entry matches. -/
theorem C7_separators_only_between {ρ : Type} (gpuInfo : List (GpuInfo ρ)) :
    (1 ≤ (matchingIDs gpuInfo).length →
        (valueSuffix (syclGetVisibleDevicesEnv gpuInfo).2).length =
          ((matchingIDs gpuInfo).map String.length).sum + (matchingIDs gpuInfo).length - 1)
      ∧ (1 ≤ (matchingIDs gpuInfo).length →
          (valueSuffix (syclGetVisibleDevicesEnv gpuInfo).2).utf8ByteSize =
            ((matchingIDs gpuInfo).map String.utf8ByteSize).sum
              + (matchingIDs gpuInfo).length - 1)
      ∧ ((matchingIDs gpuInfo).length = 0 →
          (valueSuffix (syclGetVisibleDevicesEnv gpuInfo).2).length = 0)
      ∧ (∀ a b c : String, matchingIDs gpuInfo = [a, b, c] →
          valueSuffix (syclGetVisibleDevicesEnv gpuInfo).2 = a ++ "," ++ b ++ "," ++ c)
      ∧ (∀ (a : String) (rest : List String), matchingIDs gpuInfo = a :: rest →
          (syclGetVisibleDevicesEnv gpuInfo).2 =
            "level_zero:" ++ (a ++ rest.foldr (fun s acc => "," ++ s ++ acc) ""))
      ∧ (∀ (front : List String) (z : String), matchingIDs gpuInfo = front ++ [z] →
          (syclGetVisibleDevicesEnv gpuInfo).2 =
            "level_zero:" ++ front.foldr (fun s acc => s ++ "," ++ acc) z)
      ∧ (matchingIDs gpuInfo = [] → (syclGetVisibleDevicesEnv gpuInfo).2 = "level_zero:")
      ∧ (valueSuffix (syclGetVisibleDevicesEnv gpuInfo).2).data.count ',' =
          ((matchingIDs gpuInfo).map (fun s => s.data.count ',')).sum
            + ((matchingIDs gpuInfo).length - 1)
      ∧ (syclGetVisibleDevicesEnv oneEmptyID).2 = "level_zero:"
      ∧ (syclGetVisibleDevicesEnv twoPlainIDs).2 = "level_zero:a,b"
      ∧ (syclGetVisibleDevicesEnv fourIDs).2 = "level_zero:0,10,2,33" := by
  have hv : valueSuffix (syclGetVisibleDevicesEnv gpuInfo).2 = commaJoin (matchingIDs gpuInfo) :=
    valueSuffix_eq gpuInfo
  have hval : (syclGetVisibleDevicesEnv gpuInfo).2 =
      "level_zero:" ++ commaJoin (matchingIDs gpuInfo) := by
    rw [syclGetVisibleDevicesEnv_eq]
  have hl := commaJoin_length (matchingIDs gpuInfo)
  have hb := commaJoin_utf8ByteSize (matchingIDs gpuInfo)
  refine ⟨?_, ?_, ?_, ?_, ?_, ?_, ?_, ?_, by decide, by decide, by decide⟩
  · intro hN
    rw [hv, hl]; omega
  · intro hN
    rw [hv, hb]; omega
  · intro h0
    rw [hv, hl, h0, List.length_eq_zero.mp h0]; rfl
  · intro a b c habc
    rw [hv, habc]
    simp [commaJoin, String.append_assoc]
  · intro a rest h
    rw [hval, h, commaJoin_cons_foldr]
  · intro front z h
    rw [hval, h, commaJoin_concat_foldr]
  · intro h
    rw [hval, h]; rfl
  · rw [hv, commaJoin_count]

theorem C7_separators_only_between_witness :
    (1 ≤ (matchingIDs syclOnly).length
        ∧ (valueSuffix (syclGetVisibleDevicesEnv syclOnly).2).length =
            ((matchingIDs syclOnly).map String.length).sum + (matchingIDs syclOnly).length - 1)
      ∧ ((matchingIDs otherOnly).length = 0
        ∧ (valueSuffix (syclGetVisibleDevicesEnv otherOnly).2).length = 0)
      ∧ (matchingIDs syclOnly = ["7", "7", "3"]
        ∧ valueSuffix (syclGetVisibleDevicesEnv syclOnly).2 = "7" ++ "," ++ "7" ++ "," ++ "3")
      ∧ (matchingIDs twoPlainIDs = "a" :: ["b"]
        ∧ (syclGetVisibleDevicesEnv twoPlainIDs).2 = "level_zero:" ++ ("a" ++ ("," ++ "b" ++ "")))
      ∧ (matchingIDs fourIDs = ["0", "10", "2"] ++ ["33"]
        ∧ (syclGetVisibleDevicesEnv fourIDs).2 =
            "level_zero:" ++ ("0" ++ "," ++ ("10" ++ "," ++ ("2" ++ "," ++ "33"))))
      ∧ (matchingIDs otherOnly = []
        ∧ (syclGetVisibleDevicesEnv otherOnly).2 = "level_zero:") :=
  ⟨⟨by decide, (C7_separators_only_between syclOnly).1 (by decide)⟩,
   ⟨by decide, (C7_separators_only_between otherOnly).2.2.1 (by decide)⟩,
   ⟨by decide, (C7_separators_only_between syclOnly).2.2.2.1 "7" "7" "3" (by decide)⟩,
   ⟨by decide, (C7_separators_only_between twoPlainIDs).2.2.2.2.1 "a" ["b"] (by decide)⟩,
   ⟨by decide,
    (C7_separators_only_between fourIDs).2.2.2.2.2.1 ["0", "10", "2"] "33" (by decide)⟩,
   ⟨by decide, (C7_separators_only_between otherOnly).2.2.2.2.2.2.1 (by decide)⟩⟩

/-- C9: identifiers are passed through verbatim, not validated, trimmed or
dropped. For an input with exactly one entry whose Library is "sycl", among any
number of other entries before and after it, the value is "level_zero:"
followed by that entry's ID unchanged, whatever the ID is. In every input, a
matching entry keeps its position whatever its ID is, the empty ID included:
its ID stands in the sequence of joined IDs between those before and those
after, the value holds it unchanged with one "," towards each side that has a
matching entry, and when no matching ID holds a comma the value splits on ","
into exactly one piece per matching entry. Matching IDs "" then "1" give
"level_zero:,1", and "1" then "" give "level_zero:1,". -/
theorem C9_identifier_passed_verbatim {ρ : Type}
    (before after : List (GpuInfo ρ)) (entry : GpuInfo ρ)
    (hentry : entry.Library = "sycl") :
    ((∀ info ∈ before, info.Library ≠ "sycl") → (∀ info ∈ after, info.Library ≠ "sycl") →
        (syclGetVisibleDevicesEnv (before ++ entry :: after)).2 = "level_zero:" ++ entry.ID)
      ∧ (loopResult (before ++ entry :: after)).ids =
          (loopResult before).ids ++ entry.ID :: (loopResult after).ids
      ∧ (syclGetVisibleDevicesEnv (before ++ entry :: after)).2 =
          "level_zero:" ++
            ((if before.any (fun info => info.Library == "sycl")
                then valueSuffix (syclGetVisibleDevicesEnv before).2 ++ "," else "")
              ++ entry.ID ++
             (if after.any (fun info => info.Library == "sycl")
                then "," ++ valueSuffix (syclGetVisibleDevicesEnv after).2 else ""))
      ∧ ((∀ info ∈ before ++ entry :: after, info.Library = "sycl" → ',' ∉ info.ID.data) →
          Split (valueSuffix (syclGetVisibleDevicesEnv (before ++ entry :: after)).2) ',' =
              ((before.filter (fun info => info.Library == "sycl")).map (fun info => info.ID))
                ++ entry.ID ::
                  ((after.filter (fun info => info.Library == "sycl")).map (fun info => info.ID))
            ∧ (Split (valueSuffix (syclGetVisibleDevicesEnv (before ++ entry :: after)).2)
                  ',').length =
                before.countP (fun info => info.Library == "sycl") + 1
                  + after.countP (fun info => info.Library == "sycl"))
      ∧ (syclGetVisibleDevicesEnv emptyIDInput).2 = "level_zero:,1"
      ∧ (syclGetVisibleDevicesEnv trailingEmptyID).2 = "level_zero:1,"
      ∧ (syclGetVisibleDevicesEnv (oneEmptyID ++ oneEmptyID ++ oneEmptyID)).2 = "level_zero:,," := by
  have hids : matchingIDs (before ++ entry :: after) =
      matchingIDs before ++ entry.ID :: matchingIDs after := by
    rw [matchingIDs_append, matchingIDs_cons_of_eq entry after hentry]
  have hval : (syclGetVisibleDevicesEnv (before ++ entry :: after)).2 =
      "level_zero:" ++ commaJoin (matchingIDs before ++ entry.ID :: matchingIDs after) := by
    rw [syclGetVisibleDevicesEnv_eq, hids]
  refine ⟨?_, ?_, ?_, ?_, by decide, by decide, by decide⟩
  · intro hbefore hafter
    have hb : matchingIDs before = [] := by simp [matchingIDs, matching_eq_nil before hbefore]
    have ha : matchingIDs after = [] := by simp [matchingIDs, matching_eq_nil after hafter]
    rw [hval, hb, ha]
    simp [commaJoin]
  · rw [loopResult_ids, loopResult_ids, loopResult_ids, hids]
  · rw [hval, commaJoin_middle, valueSuffix_eq, valueSuffix_eq]
    by_cases hb : matchingIDs before = []
    · by_cases ha : matchingIDs after = []
      · simp [hb, ha, (any_sycl_eq_false_iff before).mpr hb, (any_sycl_eq_false_iff after).mpr ha]
      · have ha2 : after.any (fun info => info.Library == "sycl") = true := by
          rw [← Bool.not_eq_false]
          exact fun h => ha ((any_sycl_eq_false_iff after).mp h)
        simp only [hb, ha, (any_sycl_eq_false_iff before).mpr hb, ha2, if_true, if_false]
        simp
    · have hb2 : before.any (fun info => info.Library == "sycl") = true := by
        rw [← Bool.not_eq_false]
        exact fun h => hb ((any_sycl_eq_false_iff before).mp h)
      by_cases ha : matchingIDs after = []
      · simp only [hb, ha, (any_sycl_eq_false_iff after).mpr ha, hb2, if_true, if_false]
        simp
      · have ha2 : after.any (fun info => info.Library == "sycl") = true := by
          rw [← Bool.not_eq_false]
          exact fun h => ha ((any_sycl_eq_false_iff after).mp h)
        simp only [hb, ha, hb2, ha2, if_true, if_false]
  · intro hcomma
    have hfree : ∀ s ∈ matchingIDs (before ++ entry :: after), ',' ∉ s.data := by
      intro s hs
      simp only [matchingIDs, matching, List.mem_map, List.mem_filter] at hs
      obtain ⟨info, ⟨hmem, hlib⟩, rfl⟩ := hs
      exact hcomma info hmem (by simpa using hlib)
    have hne : matchingIDs (before ++ entry :: after) ≠ [] := by
      rw [hids]; simp
    have hsplit : Split (valueSuffix (syclGetVisibleDevicesEnv (before ++ entry :: after)).2) ',' =
        matchingIDs before ++ entry.ID :: matchingIDs after := by
      rw [valueSuffix_eq, Split, splitOn_commaJoin _ hne hfree, map_mk_map_data, hids]
    refine ⟨hsplit, ?_⟩
    rw [hsplit]
    simp [matchingIDs, matching, List.countP_eq_length_filter]
    omega

theorem C9_identifier_passed_verbatim_witness :
    ((∀ info ∈ otherOnly, info.Library ≠ "sycl")
        ∧ (syclGetVisibleDevicesEnv
            (otherOnly ++ (⟨" a, b ", "sycl", 0⟩ : GpuInfo Nat) :: otherOnly)).2 =
              "level_zero:" ++ " a, b ")
      ∧ (syclGetVisibleDevicesEnv ([] ++ (⟨"", "sycl", 0⟩ : GpuInfo Nat) :: otherOnly)).2 =
            "level_zero:" ++ ""
      ∧ (syclGetVisibleDevicesEnv (twoPlainIDs ++ (⟨"", "sycl", 7⟩ : GpuInfo Nat) :: [])).2 =
            "level_zero:" ++ ("a,b" ++ "," ++ "" ++ "")
      ∧ ((∀ info ∈ twoPlainIDs ++ (⟨"", "sycl", 7⟩ : GpuInfo Nat) :: mixedInput,
            info.Library = "sycl" → ',' ∉ info.ID.data)
        ∧ Split (valueSuffix (syclGetVisibleDevicesEnv
            (twoPlainIDs ++ (⟨"", "sycl", 7⟩ : GpuInfo Nat) :: mixedInput)).2) ',' =
              ["a", "b", "", "0", "2"]) :=
  ⟨⟨by decide,
    (C9_identifier_passed_verbatim otherOnly otherOnly ⟨" a, b ", "sycl", 0⟩ rfl).1
      (by decide) (by decide)⟩,
   (C9_identifier_passed_verbatim [] otherOnly ⟨"", "sycl", 0⟩ rfl).1 (by decide) (by decide),
   (C9_identifier_passed_verbatim twoPlainIDs [] ⟨"", "sycl", 7⟩ rfl).2.2.1,
   ⟨by decide,
    ((C9_identifier_passed_verbatim twoPlainIDs mixedInput ⟨"", "sycl", 7⟩ rfl).2.2.2.1
      (by decide)).1⟩⟩

end Discover
